import Mathlib

/-!
Verification development for the chalet-bookings ingestion system
(`chalet_bookings_v2.py`, `chalet_bookings_v2.1.py`, `functions.py`).

The Python sources are shallowly embedded: pure helpers become Lean
functions, the polling pipeline (`process_responses` / `main`) becomes a
pure function from its inputs (fetched table, stored sync state, external
writer outcomes) to a run outcome recording archive appends, ledger
writes, persisted sync state and the process exit signal.  External
library calls (pandas timestamp parsing and formatting, the verbose date
parser's strptime core) are modelled as parameters of an `Env` record;
the sha256 table fingerprint is modelled as an arbitrary hash function
parameter.  Timestamps are naturals, with 0 standing for the epoch
default `datetime(1970, 1, 1)`.
-/

/-- Model of the external library calls used while parsing one row.
`parseTs` models `pd.to_datetime(·, dayfirst=True)` on a submission
timestamp string; `fmtDate` models `.strftime("%d/%m/%Y")` on such a
parsed timestamp; `parseLFD` models `parse_long_form_date`
(`functions.py`), with `none` standing for its DateFormatError /
`ValueError` outcome. -/
structure Env where
  parseTs : String → Nat
  fmtDate : Nat → String
  parseLFD : String → Option String

/- ## functions.py: parse_phone_number -/

/-- `''.join(filter(str.isdigit, number))` from `parse_phone_number`. -/
def digits_of (number : String) : List Char :=
  number.data.filter Char.isDigit

/-- `if number.startswith("44"): number = number[2:]` on the digit string. -/
def drop_uk_code : List Char → List Char
  | '4' :: '4' :: rest => rest
  | l => l

/-- `if not number.startswith("0"): number = "0" + number`. -/
def ensure_leading_zero : List Char → List Char
  | '0' :: rest => '0' :: rest
  | l => '0' :: l

/-- `functions.parse_phone_number`: strip non-digits, drop a leading
"44", prepend "0" when the result does not already start with "0".
Total — it never raises. -/
def parse_phone_number (number : String) : String :=
  ⟨ensure_leading_zero (drop_uk_code (digits_of number))⟩

/- ## functions.py: retry decorator -/

/-- Trace of one call of a function wrapped by `functions.retry`:
the returned value (`none` models `max_retries = 0`, where the Python
loop body never runs and the wrapper falls off the end returning None),
how many failure-alert emails were sent, and the list of delays slept
between attempts. -/
structure RetryTrace (ε α : Type) where
  result : Option (Except ε α)
  alerts : Nat
  sleeps : List Nat

/-- The loop body of `functions.retry`: `remaining` attempts are left
(the current one included), `attempt` is the current 0-based attempt
index; `f a` is the outcome of attempt `a` of the wrapped function.
On failure of a non-final attempt it sleeps `delay` and retries; on
failure of the final attempt it sends one alert email and re-raises
that attempt's exception. -/
def retry_go (delay : Nat) (f : Nat → Except ε α) : Nat → Nat → RetryTrace ε α
  | 0, _ => ⟨none, 0, []⟩
  | remaining + 1, attempt =>
    match f attempt with
    | .ok a => ⟨some (.ok a), 0, []⟩
    | .error e =>
      match remaining with
      | 0 => ⟨some (.error e), 1, []⟩
      | r + 1 =>
        let rest := retry_go delay f (r + 1) (attempt + 1)
        ⟨rest.result, rest.alerts, delay :: rest.sleeps⟩

/-- `functions.retry(max_retries, delay)` applied to a call whose
attempt outcomes are `f`.  Defaults in the source: `max_retries = 3`,
`delay = 2`. -/
def retry_call (max_retries delay : Nat) (f : Nat → Except ε α) : RetryTrace ε α :=
  retry_go delay f max_retries 0

/- ## Data model (Booking aggregate, chalet_bookings_v2.py) -/

/-- One guest record built by the guest loop of `parse_row` /
`parse_booking`.  Optional fields come from `.get` lookups. -/
structure Guest where
  first_name : String
  family_name : String
  full_name : String
  email : Option String
  dob : Option String
  room : Option String
  group : String
  chalet : String
  start_date : String
  end_date : String
  booked_on : String
deriving DecidableEq

/-- The `leader_details` dict of `parse_row` / `parse_booking`.
Every field except `add3` comes from a required (`row["..."]`) lookup. -/
structure Leader where
  first_name : String
  family_name : String
  full_name : String
  email : String
  dob : String
  add1 : String
  add2 : String
  add3 : Option String
  town : String
  postcode : String
  phone : String
  room : String
  group : String
  chalet : String
  start_date : String
  end_date : String
  booked_on : String
deriving DecidableEq

/-- The `Booking` class of `chalet_bookings_v2.py`.  `booking_time`,
`start_date` and `end_date` are instance attributes initialised to
`None` in `__init__` and never assigned by `parse_row`; they stay
`none`.  `guests` keeps the dict's insertion order (ascending person
number). -/
structure Booking where
  booking_time : Option String := none
  leader_details : Leader
  guests : List (Nat × Guest)
  start_date : Option String := none
  end_date : Option String := none
  how_heard : Option String
  dietaries : Option String
  kids_meals : Option String
deriving DecidableEq

/-- Errors raised while parsing one record: a `KeyError` on a required
field lookup (the spec's MissingFieldError, carrying the missing key)
or a `parse_long_form_date` failure (the spec's DateFormatError). -/
inductive ParseError where
  | missingField (key : String)
  | dateFormat (raw : String)
deriving DecidableEq

/-- A row handed to the parser: the flat mapping from question label to
answer string (a cleaned pandas Series in the polling path, the
filtered webhook payload in the event path). -/
abbrev RowMap := List (String × String)

/-- `row["key"]` on a pandas Series / dict: the value, or a KeyError.
The first matching label wins. -/
def req (row : RowMap) (key : String) : Except ParseError String :=
  match List.lookup key row with
  | some v => .ok v
  | none => .error (.missingField key)

/-- `row.get("key")`: optional lookup, `none` when absent. -/
def opt (row : RowMap) (key : String) : Option String :=
  List.lookup key row

/-- `f"(person {n})"` suffixed labels used by the guest loop. -/
def person_key (base : String) (n : Nat) : String :=
  base ++ " (person " ++ toString n ++ ")"

/-- The guest loop's stopping test `if not first_name`: the lookup of
"First name (person n)" is absent or the empty string. -/
def guest_stop (row : RowMap) (n : Nat) : Bool :=
  match opt row (person_key "First name" n) with
  | none => true
  | some s => s = ""

/-- One guest dict literal of the guest loop, for person `n` with first
name `fn`; `family_name`, `chalet`, `start_date`, `end_date` and
`booked_on` are leader-scoped values copied in. -/
def mk_guest (row : RowMap) (family_name chalet start_date end_date booked_on : String)
    (n : Nat) (fn : String) : Guest :=
  { first_name := fn
    family_name := (opt row (person_key "Family name" n)).getD ""
    full_name := fn ++ " " ++ (opt row (person_key "Family name" n)).getD ""
    email := opt row (person_key "Email address" n)
    dob := opt row (person_key "Date of birth" n)
    room := opt row (person_key "Which room will this person be in?" n)
    group := family_name
    chalet := chalet
    start_date := start_date
    end_date := end_date
    booked_on := booked_on }

/-- The `while True` guest loop of `parse_row` / `parse_booking`,
starting at person number `n` with `fuel` iterations available.  The
Python loop is unbounded; every theorem about it carries a hypothesis
that `fuel` covers the first stopping index (a finite row mapping
always has one). -/
def parse_guests (row : RowMap) (family_name chalet start_date end_date booked_on : String) :
    Nat → Nat → List (Nat × Guest)
  | 0, _ => []
  | fuel + 1, n =>
    match opt row (person_key "First name" n) with
    | none => []
    | some fn =>
      if fn = "" then []
      else (n, mk_guest row family_name chalet start_date end_date booked_on n fn) ::
        parse_guests row family_name chalet start_date end_date booked_on fuel (n + 1)

/-- `parse_row` (`chalet_bookings_v2.py`), identically `parse_booking`
(`chalet_bookings_v2.1.py`): required lookups in the source's
evaluation order, then the guest loop, then the optional trailing
fields.  `env.fmtDate (env.parseTs ts)` models
`pd.to_datetime(row["Timestamp"]).strftime("%d/%m/%Y")`. -/
def parse_row (env : Env) (fuel : Nat) (row : RowMap) : Except ParseError Booking := do
  let ts ← req row "Timestamp"
  let booked_on := env.fmtDate (env.parseTs ts)
  let family_name ← req row "Family name"
  let chalet ← req row "Which chalet?"
  let start_raw ← req row ("Start of stay in chalet " ++ chalet)
  let start_date ← match env.parseLFD start_raw with
    | some d => Except.ok d
    | none => Except.error (.dateFormat start_raw)
  let end_raw ← req row ("End of stay in chalet " ++ chalet)
  let end_date ← match env.parseLFD end_raw with
    | some d => Except.ok d
    | none => Except.error (.dateFormat end_raw)
  let first_name ← req row "First name"
  let email ← req row "Email address"
  let dob ← req row "Date of birth"
  let add1 ← req row "Address 1"
  let add2 ← req row "Address 2"
  let add3 := (opt row "Address 3").bind (fun s => if s = "" then none else some s)
  let town ← req row "Town"
  let postcode ← req row "Postcode"
  let phone_raw ← req row "Contact telephone number"
  let room ← req row "Which room will you be staying in?"
  let leader : Leader :=
    { first_name := first_name
      family_name := family_name
      full_name := first_name ++ " " ++ family_name
      email := email
      dob := dob
      add1 := add1
      add2 := add2
      add3 := add3
      town := town
      postcode := postcode
      phone := parse_phone_number phone_raw
      room := room
      group := family_name
      chalet := chalet
      start_date := start_date
      end_date := end_date
      booked_on := booked_on }
  Except.ok
    { leader_details := leader
      guests := parse_guests row family_name chalet start_date end_date booked_on fuel 2
      how_heard := opt row "Please tell us how you heard about us. It would be really helpful!"
      dietaries := opt row "What are the dietary requirements?"
      kids_meals := opt row "How many children's meals do you require?" }

/- ## Polling pipeline (chalet_bookings_v2.py) -/

/-- The persisted `Data/hash.json` record: the sha256 fingerprint of the
last fully processed table snapshot (modelled as a `Nat`) and the
high-water-mark timestamp stored with it. -/
structure SyncState where
  hash : Nat
  datetime : Nat
deriving DecidableEq

/-- `check_sheet_changed`'s comparison: `False` (no new responses) only
when a stored fingerprint exists and equals the current one.  With no
stored file `previous_hash` is `None` and the comparison with the hex
digest string is always unequal. -/
def check_sheet_changed (stored : Option SyncState) (current : Nat) : Bool :=
  match stored with
  | none => true
  | some s => if s.hash = current then false else true

/-- The `previous_datetime` read by `check_sheet_changed`:
`datetime(1970, 1, 1)` (modelled as 0) when no sync-state file exists,
else the stored high-water mark. -/
def previous_datetime (stored : Option SyncState) : Nat :=
  match stored with
  | none => 0
  | some s => s.datetime

/-- The `Timestamp` cell of one raw data row, located through the
header row (`responses.columns = responses.iloc[0]`). -/
def ts_of (hdr row : List String) : String :=
  (List.lookup "Timestamp" (hdr.zip row)).getD ""

/-- `^\s*$`: the answer is empty or consists of whitespace only. -/
def blank_str (s : String) : Bool :=
  s.data.all Char.isWhitespace

/-- `row.replace(r'^\s*$', pd.NA, regex=True).dropna()`: drop the cells
whose value is empty or all-whitespace. -/
def clean_row (row : RowMap) : RowMap :=
  row.filter (fun kv => ¬ blank_str kv.2)

/-- `responses[responses['Timestamp'] > previous_datetime]`: the data
rows whose submission timestamp, parsed by `env.parseTs`
(`pd.to_datetime(·, dayfirst=True)`), is strictly greater than the
stored high-water mark. -/
def selected_rows (env : Env) (stored : Option SyncState) (hdr : List String)
    (rows : List (List String)) : List (List String) :=
  rows.filter (fun r => previous_datetime stored < env.parseTs (ts_of hdr r))

/-- What one polling run did before (possibly) persisting sync state:
archive appends (`dump_to_json`), bookings whose ledger write
(`add_to_master`) succeeded, and whether the run aborted (uncaught
exception or `sys.exit(1)`). -/
structure ProcRes where
  archive : List Booking
  ledger : List Booking
  failed : Bool

/-- The `for _, row in new_responses.iterrows()` loop: clean the row,
parse it, append to the archive, write to the ledger.  `writer i a`
models the outcome of attempt `a` of the remote `update_cells` call for
the `i`-th booking of the batch; the source performs exactly one
attempt (`a = 0`) per booking and has no exception handling, so the
first parse error or write failure aborts the rest of the batch. -/
def run_rows (env : Env) (hdr : List String) (writer : Nat → Nat → Bool) :
    Nat → List (List String) → ProcRes
  | _, [] => ⟨[], [], false⟩
  | i, r :: rs =>
    let cr := clean_row (hdr.zip r)
    match parse_row env (cr.length + 2) cr with
    | .error _ => ⟨[], [], true⟩
    | .ok b =>
      if writer i 0 then
        let rest := run_rows env hdr writer (i + 1) rs
        ⟨b :: rest.archive, b :: rest.ledger, rest.failed⟩
      else ⟨[b], [], true⟩

/-- `process_responses`: empty-fetch check, fingerprint short-circuit
(`sys.exit(1)` on "no new responses"), `Timestamp` column access
(KeyError aborts the run when the header lacks it), high-water-mark
filter, then the per-row loop.  `hashFn` models the sha256 over
`pd.util.hash_pandas_object` of the whole fetched frame (header row
included). -/
def process_responses (env : Env) (hashFn : List (List String) → Nat)
    (writer : Nat → Nat → Bool) (stored : Option SyncState)
    (table : List (List String)) : ProcRes :=
  match table with
  | [] => ⟨[], [], true⟩
  | hdr :: rows =>
    if check_sheet_changed stored (hashFn (hdr :: rows)) = false then ⟨[], [], true⟩
    else if hdr.contains "Timestamp" = false then ⟨[], [], true⟩
    else run_rows env hdr writer 0 (selected_rows env stored hdr rows)

/-- Outcome of one whole invocation of `main`: the archive and ledger
effects, the sync-state file content after the run, and whether the
process finished without a failure signal. -/
structure RunOutcome where
  archive : List Booking
  ledger : List Booking
  state : Option SyncState
  ok : Bool

/-- `main(started=datetime.now())`: run `process_responses`; only when
it returns normally, overwrite `Data/hash.json` with the current
fingerprint and `started` — the run's start time.  Every abort inside
`process_responses` (exit or uncaught exception) leaves the stored
state untouched and signals failure. -/
def main_run (env : Env) (hashFn : List (List String) → Nat)
    (writer : Nat → Nat → Bool) (stored : Option SyncState)
    (table : List (List String)) (started : Nat) : RunOutcome :=
  let p := process_responses env hashFn writer stored table
  if p.failed then ⟨p.archive, p.ledger, stored, false⟩
  else ⟨p.archive, p.ledger, some ⟨hashFn table, started⟩, true⟩

/- ## Ledger writer (Booking.add_to_master) -/

/-- A value placed in one ledger cell by `add_to_master`: a string
answer, the integer id marker, the boolean confirmed flag, or `None`
(an unset `Booking` attribute passed through `map_fields`). -/
inductive CellVal where
  | s (v : String)
  | n (v : Nat)
  | b (v : Bool)
  | null
deriving DecidableEq

/-- One `gspread.Cell(row, col, value)` of the batched update. -/
structure Cell where
  row : Nat
  col : Nat
  val : CellVal
deriving DecidableEq

/-- `MASTER_COLUMNS_MAPPING`, in source order. -/
def master_columns_mapping : List (String × Nat) :=
  [("first_name", 3), ("family_name", 4), ("full_name", 5), ("dob", 6),
   ("add1", 7), ("add2", 8), ("add3", 9), ("town", 10), ("postcode", 11),
   ("email", 12), ("phone", 13), ("group", 14), ("start_date", 16),
   ("end_date", 17), ("chalet", 19), ("room", 20), ("booked_on", 21),
   ("kids_meals", 41), ("dietaries", 42), ("how_heard", 43)]

/-- `map_fields(data, row, cells)`: for each key in `data`, add a cell
at `(row, mapping[key])` when the key is mapped, else drop it. -/
def map_fields (pairs : List (String × CellVal)) (row : Nat) : List Cell :=
  pairs.filterMap (fun kv =>
    (List.lookup kv.1 master_columns_mapping).map (fun c => Cell.mk row c kv.2))

/-- An optional string attribute as a cell value (`None` stays null). -/
def opt_val : Option String → CellVal
  | none => .null
  | some v => .s v

/-- `self.__dict__` after popping `guests` and `leader_details`, in
insertion order (`__init__` order of `chalet_bookings_v2.py`). -/
def booking_data_pairs (bk : Booking) : List (String × CellVal) :=
  [("booking_time", opt_val bk.booking_time),
   ("start_date", opt_val bk.start_date),
   ("end_date", opt_val bk.end_date),
   ("how_heard", opt_val bk.how_heard),
   ("dietaries", opt_val bk.dietaries),
   ("kids_meals", opt_val bk.kids_meals)]

/-- The `leader_details` dict's items, in insertion order. -/
def leader_pairs (l : Leader) : List (String × CellVal) :=
  [("first_name", .s l.first_name), ("family_name", .s l.family_name),
   ("full_name", .s l.full_name), ("email", .s l.email), ("dob", .s l.dob),
   ("add1", .s l.add1), ("add2", .s l.add2), ("add3", opt_val l.add3),
   ("town", .s l.town), ("postcode", .s l.postcode), ("phone", .s l.phone),
   ("room", .s l.room), ("group", .s l.group), ("chalet", .s l.chalet),
   ("start_date", .s l.start_date), ("end_date", .s l.end_date),
   ("booked_on", .s l.booked_on)]

/-- One guest dict's items, in insertion order. -/
def guest_pairs (g : Guest) : List (String × CellVal) :=
  [("first_name", .s g.first_name), ("family_name", .s g.family_name),
   ("full_name", .s g.full_name), ("email", opt_val g.email),
   ("dob", opt_val g.dob), ("room", opt_val g.room), ("group", .s g.group),
   ("chalet", .s g.chalet), ("start_date", .s g.start_date),
   ("end_date", .s g.end_date), ("booked_on", .s g.booked_on)]

/-- `for i, guest in enumerate(guests.values(), start=1)`: the `i`-th
guest's id-marker cell and mapped fields at row `start_row + i`. -/
def guest_cells (start_row : Nat) : Nat → List (Nat × Guest) → List Cell
  | _, [] => []
  | i, (_, g) :: gs =>
    (Cell.mk (start_row + i) 2 (.n (start_row + i - 1)) ::
      map_fields (guest_pairs g) (start_row + i)) ++
    guest_cells start_row (i + 1) gs

/-- Rows of the master sheet that survive
`master.replace('', nan); master.dropna(subset=['Identifier'])`: data
rows (header excluded) whose `Identifier` cell is non-empty. -/
def master_data_count (table : List (List String)) : Nat :=
  match table with
  | [] => 0
  | hdr :: rows =>
    (rows.filter (fun r => ((List.lookup "Identifier" (hdr.zip r)).getD "") ≠ "")).length

/-- `Booking.add_to_master` as the batch of cells it sends in one
`update_cells` call, given the surviving master data row count:
`start_row = len(master) + 2`, the leader's id marker (col 2, value
`start_row - 1`) and confirmed flag (col 15, `True`), the booking-level
and leader fields at `start_row`, then each guest's block. -/
def add_to_master (master_len : Nat) (bk : Booking) : List Cell :=
  let start_row := master_len + 2
  Cell.mk start_row 2 (.n (start_row - 1)) ::
  Cell.mk start_row 15 (.b true) ::
  (map_fields (booking_data_pairs bk) start_row ++
   map_fields (leader_pairs bk.leader_details) start_row ++
   guest_cells start_row 1 bk.guests)

/- ## Concrete fixtures used by witnesses and counterexamples -/

/-- Whether an `Except` computation succeeded. -/
def except_ok : Except ε α → Bool
  | .ok _ => true
  | .error _ => false

/-- Decimal reading of a string, used only to instantiate `Env.parseTs`
in concrete witnesses. -/
def nat_of_string (s : String) : Nat :=
  s.data.foldl (fun a c => a * 10 + (c.toNat - 48)) 0

/-- Concrete external-call instantiation for evaluation: timestamps are
decimal strings, date formatting is the decimal rendering, the verbose
date parser echoes its input. -/
def test_env : Env :=
  { parseTs := nat_of_string
    fmtDate := fun n => toString n
    parseLFD := fun s => some s }

/-- Concrete table fingerprint for evaluation: the row count. -/
def test_hash (t : List (List String)) : Nat := t.length

/-- Header row of the concrete response table. -/
def test_hdr : List String :=
  ["Timestamp", "Family name", "Which chalet?", "Start of stay in chalet A",
   "End of stay in chalet A", "First name", "Email address", "Date of birth",
   "Address 1", "Address 2", "Town", "Postcode", "Contact telephone number",
   "Which room will you be staying in?", "First name (person 2)",
   "Family name (person 2)"]

/-- One complete data row: timestamp `ts`, leader family name `fam`,
person 2's first name `g2` (blank for no guest). -/
def test_row (ts fam g2 : String) : List String :=
  [ts, fam, "A", "4 Jan", "11 Jan", "Ann", "ann@example.com", "01/01/1990",
   "1 High St", "Flat 2", "Leeds", "LS1", "+44 7802 312241", "Blue", g2, "Lee"]

/- ## Helper lemmas -/

theorem except_bind_ok {ε α β : Type} {x : Except ε α} {f : α → Except ε β} {b : β}
    (h : x >>= f = Except.ok b) : ∃ a, x = Except.ok a ∧ f a = Except.ok b := by
  cases x with
  | ok a => exact ⟨a, rfl, h⟩
  | error e => exact absurd h (by simp [Bind.bind, Except.bind])

theorem except_bind_error {ε α β : Type} {x : Except ε α} {f : α → Except ε β} {e : ε}
    (h : x >>= f = Except.error e) :
    x = Except.error e ∨ ∃ a, x = Except.ok a ∧ f a = Except.error e := by
  cases x with
  | ok a => exact Or.inr ⟨a, rfl, h⟩
  | error e₀ =>
    refine Or.inl ?_
    simpa [Bind.bind, Except.bind] using h

theorem req_error_name {row : RowMap} {key k : String}
    (h : req row key = Except.error (.missingField k)) : List.lookup k row = none := by
  unfold req at h
  cases hl : List.lookup key row with
  | some v => rw [hl] at h; simp at h
  | none =>
    rw [hl] at h
    simp only [Except.error.injEq, ParseError.missingField.injEq] at h
    exact h ▸ hl

/- ## C9: phone normalization -/

/-- Claim C9, counterexample: on the "0044"-prefixed input
`"0044 7802 312241"` the digit string starts with "00", so the UK
country code is never stripped and the result is the 14-digit
`"00447802312241"`, not an 11-digit number. -/
theorem phone_0044_cex :
    parse_phone_number "0044 7802 312241" = "00447802312241" ∧
    (parse_phone_number "0044 7802 312241").length = 14 ∧
    (parse_phone_number "0044 7802 312241").length ≠ 11 := by
  refine ⟨by decide, by decide, by decide⟩

/-- Claim C9 (amended): when the stripped digit string begins with "44"
(a "+44" or bare "44" prefix — not "0044", whose digits begin "00"),
normalization drops the country code and prepends "0", giving
`'0' :: rest`, one character longer than the national remainder (11
digits when the remainder is a 10-digit national number); in general
the result always starts with "0" and the function is total — it never
raises. -/
theorem phone_normalization_amended :
    (∀ (number : String) (rest : List Char),
      digits_of number = '4' :: '4' :: rest →
      rest.head? ≠ some '0' →
      parse_phone_number number = ⟨'0' :: rest⟩ ∧
      (parse_phone_number number).length = rest.length + 1) ∧
    (∀ number : String, (parse_phone_number number).data.head? = some '0') := by
  constructor
  · intro number rest hds h0
    have hpn : parse_phone_number number = ⟨'0' :: rest⟩ := by
      unfold parse_phone_number
      rw [hds]
      show String.mk (ensure_leading_zero rest) = String.mk ('0' :: rest)
      cases rest with
      | nil => rfl
      | cons c cs =>
        unfold ensure_leading_zero
        split
        · next heq => simp only [List.cons.injEq] at heq; cases heq.1; simp at h0
        · rfl
    exact ⟨hpn, by rw [hpn]; simp [String.length]⟩
  · intro number
    unfold parse_phone_number
    cases hl : ensure_leading_zero (drop_uk_code (digits_of number)) with
    | nil =>
      exact absurd hl (by unfold ensure_leading_zero; split <;> simp)
    | cons c cs =>
      have hc : c = '0' := by
        revert hl
        unfold ensure_leading_zero
        split
        · intro hl; cases hl; rfl
        · intro hl; cases hl; rfl
      simp [hl, hc]

/-- Witness for `phone_normalization_amended` at the claim's own
"+44"-prefixed input. -/
theorem phone_normalization_amended_witness :
    parse_phone_number "+44 7802 312241" = "07802312241" ∧
    (parse_phone_number "+44 7802 312241").length = 11 ∧
    (parse_phone_number "+44 7802 312241").data.head? = some '0' := by
  have h := phone_normalization_amended
  obtain ⟨h1, h2⟩ := h.1 "+44 7802 312241" "7802312241".data (by decide) (by decide)
  exact ⟨h1.trans (by decide), h2.trans (by decide), h.2 "+44 7802 312241"⟩

/- ## C2: fingerprint short-circuit -/

/-- Claim C2: when the fetched table hashes to the stored fingerprint,
`check_sheet_changed` returns False, `process_responses` exits via
`sys.exit(1)` before any row work, and `main` never rewrites
`Data/hash.json`: zero archive appends, zero ledger writes, sync state
unchanged. -/
theorem fingerprint_short_circuit_noop (env : Env) (hashFn : List (List String) → Nat)
    (writer : Nat → Nat → Bool) (s : SyncState) (hdr : List String)
    (rows : List (List String)) (started : Nat)
    (hh : hashFn (hdr :: rows) = s.hash) :
    (main_run env hashFn writer (some s) (hdr :: rows) started).archive = [] ∧
    (main_run env hashFn writer (some s) (hdr :: rows) started).ledger = [] ∧
    (main_run env hashFn writer (some s) (hdr :: rows) started).state = some s := by
  simp [main_run, process_responses, check_sheet_changed, hh]

/-- Witness for `fingerprint_short_circuit_noop`: a concrete unchanged
table (`test_hash` of a three-row frame is 3, matching the stored
fingerprint). -/
theorem fingerprint_short_circuit_noop_witness :
    test_hash [test_hdr, test_row "3" "Old" "", test_row "7" "Smith" "Bob"] = 3 ∧
    (main_run test_env test_hash (fun _ _ => true) (some ⟨3, 5⟩)
        [test_hdr, test_row "3" "Old" "", test_row "7" "Smith" "Bob"] 100).archive = [] ∧
    (main_run test_env test_hash (fun _ _ => true) (some ⟨3, 5⟩)
        [test_hdr, test_row "3" "Old" "", test_row "7" "Smith" "Bob"] 100).ledger = [] ∧
    (main_run test_env test_hash (fun _ _ => true) (some ⟨3, 5⟩)
        [test_hdr, test_row "3" "Old" "", test_row "7" "Smith" "Bob"] 100).state = some ⟨3, 5⟩ := by
  have h := fingerprint_short_circuit_noop test_env test_hash (fun _ _ => true) ⟨3, 5⟩
    test_hdr [test_row "3" "Old" "", test_row "7" "Smith" "Bob"] 100 (by decide)
  exact ⟨by decide, h.1, h.2.1, h.2.2⟩

/- ## Run-loop lemmas -/

/-- Row `r` of the raw table parses (after header pairing and blank-cell
cleaning) to booking `b`, with the loop's fuel. -/
def parses_to (env : Env) (hdr : List String) (r : List String) (b : Booking) : Prop :=
  parse_row env ((clean_row (hdr.zip r)).length + 2) (clean_row (hdr.zip r)) = Except.ok b

/-- Row `r` parses successfully (decidably stated). -/
def row_parses (env : Env) (hdr : List String) (r : List String) : Bool :=
  except_ok (parse_row env ((clean_row (hdr.zip r)).length + 2) (clean_row (hdr.zip r)))

theorem run_rows_ok (env : Env) (hdr : List String) (writer : Nat → Nat → Bool)
    (rows : List (List String)) :
    ∀ i, (∀ r ∈ rows, row_parses env hdr r = true) → (∀ j, writer j 0 = true) →
    (run_rows env hdr writer i rows).failed = false ∧
    (run_rows env hdr writer i rows).ledger = (run_rows env hdr writer i rows).archive ∧
    List.Forall₂ (parses_to env hdr) rows (run_rows env hdr writer i rows).archive := by
  induction rows with
  | nil => intro i _ _; exact ⟨rfl, rfl, List.Forall₂.nil⟩
  | cons r rs ih =>
    intro i hp hw
    have hr : row_parses env hdr r = true := hp r (List.mem_cons_self r rs)
    unfold row_parses at hr
    cases hb : parse_row env ((clean_row (hdr.zip r)).length + 2) (clean_row (hdr.zip r)) with
    | error e => rw [hb] at hr; simp [except_ok] at hr
    | ok b =>
      have hrest := ih (i + 1) (fun r' hr' => hp r' (List.mem_cons_of_mem r hr')) hw
      simp only [run_rows, hb, hw i, if_true]
      refine ⟨hrest.1, by simp [hrest.2.1], ?_⟩
      exact List.Forall₂.cons (show parses_to env hdr r b from hb) hrest.2.2

theorem run_rows_fail_write (env : Env) (hdr : List String) (writer : Nat → Nat → Bool) :
    ∀ (j : Nat) (rows : List (List String)) (i : Nat) (hj : j < rows.length),
    (∀ r ∈ rows.take (j + 1), row_parses env hdr r = true) →
    (∀ m, m < j → writer (i + m) 0 = true) →
    writer (i + j) 0 = false →
    (run_rows env hdr writer i rows).failed = true ∧
    List.Forall₂ (parses_to env hdr) (rows.take (j + 1)) (run_rows env hdr writer i rows).archive ∧
    List.Forall₂ (parses_to env hdr) (rows.take j) (run_rows env hdr writer i rows).ledger := by
  intro j
  induction j with
  | zero =>
    intro rows i hj hp _ hw0
    cases rows with
    | nil => simp at hj
    | cons r rs =>
      have hr : row_parses env hdr r = true := hp r (by simp)
      unfold row_parses at hr
      cases hb : parse_row env ((clean_row (hdr.zip r)).length + 2) (clean_row (hdr.zip r)) with
      | error e => rw [hb] at hr; simp [except_ok] at hr
      | ok b =>
        have hw : writer i 0 = false := by simpa using hw0
        simp only [run_rows, hb, hw, if_false]
        refine ⟨rfl, ?_, ?_⟩
        · simpa using List.Forall₂.cons (show parses_to env hdr r b from hb) List.Forall₂.nil
        · simp
  | succ j ih =>
    intro rows i hj hp hm hw0
    cases rows with
    | nil => simp at hj
    | cons r rs =>
      have hr : row_parses env hdr r = true := hp r (by simp)
      unfold row_parses at hr
      cases hb : parse_row env ((clean_row (hdr.zip r)).length + 2) (clean_row (hdr.zip r)) with
      | error e => rw [hb] at hr; simp [except_ok] at hr
      | ok b =>
        have hwi : writer i 0 = true := by simpa using hm 0 (Nat.succ_pos j)
        have hrest := ih rs (i + 1) (by simpa using hj)
          (fun r' hr' => hp r' (by simp [List.take_succ_cons]; exact Or.inr hr'))
          (fun m hmj => by
            have := hm (m + 1) (by omega)
            have harg : i + (m + 1) = i + 1 + m := by omega
            rwa [harg] at this)
          (by
            have harg : i + (j + 1) = i + 1 + j := by omega
            rwa [harg] at hw0)
        simp only [run_rows, hb, hwi, if_true]
        refine ⟨hrest.1, ?_, ?_⟩
        · simpa [List.take_succ_cons] using
            List.Forall₂.cons (show parses_to env hdr r b from hb) hrest.2.1
        · simpa [List.take_succ_cons] using
            List.Forall₂.cons (show parses_to env hdr r b from hb) hrest.2.2

theorem run_rows_fail_parse (env : Env) (hdr : List String) (writer : Nat → Nat → Bool) :
    ∀ (j : Nat) (rows : List (List String)) (i : Nat) (hj : j < rows.length),
    (∀ r ∈ rows.take j, row_parses env hdr r = true) →
    row_parses env hdr (rows.get ⟨j, hj⟩) = false →
    (∀ m, m < j → writer (i + m) 0 = true) →
    (run_rows env hdr writer i rows).failed = true ∧
    List.Forall₂ (parses_to env hdr) (rows.take j) (run_rows env hdr writer i rows).archive ∧
    (run_rows env hdr writer i rows).ledger = (run_rows env hdr writer i rows).archive := by
  intro j
  induction j with
  | zero =>
    intro rows i hj hp hfail _
    cases rows with
    | nil => simp at hj
    | cons r rs =>
      unfold row_parses at hfail
      cases hb : parse_row env ((clean_row (hdr.zip r)).length + 2) (clean_row (hdr.zip r)) with
      | ok b => rw [show (r :: rs).get ⟨0, hj⟩ = r from rfl, hb] at hfail; simp [except_ok] at hfail
      | error e =>
        refine ⟨by simp [run_rows, hb], ?_, by simp [run_rows, hb]⟩
        simp only [run_rows, hb, List.take_zero]
        exact List.Forall₂.nil
  | succ j ih =>
    intro rows i hj hp hfail hm
    cases rows with
    | nil => simp at hj
    | cons r rs =>
      have hr : row_parses env hdr r = true := hp r (by simp [List.take_succ_cons])
      unfold row_parses at hr
      cases hb : parse_row env ((clean_row (hdr.zip r)).length + 2) (clean_row (hdr.zip r)) with
      | error e => rw [hb] at hr; simp [except_ok] at hr
      | ok b =>
        have hwi : writer i 0 = true := by simpa using hm 0 (Nat.succ_pos j)
        have hrest := ih rs (i + 1) (by simpa using hj)
          (fun r' hr' => hp r' (by simp [List.take_succ_cons]; exact Or.inr hr'))
          (by simpa using hfail)
          (fun m hmj => by
            have := hm (m + 1) (by omega)
            have harg : i + (m + 1) = i + 1 + m := by omega
            rwa [harg] at this)
        simp only [run_rows, hb, hwi, if_true]
        refine ⟨hrest.1, ?_, ?_⟩
        · simpa [List.take_succ_cons] using
            List.Forall₂.cons (show parses_to env hdr r b from hb) hrest.2.1
        · simp [hrest.2.2]

/- ## C1, C3, C10: polling-run theorems -/

theorem check_changed_of_ne {s : SyncState} {current : Nat} (h : current ≠ s.hash) :
    check_sheet_changed (some s) current = true := by
  show (if s.hash = current then false else true) = true
  rw [if_neg (fun heq => h heq.symm)]

theorem process_eq_of_changed (env : Env) (hashFn : List (List String) → Nat)
    (writer : Nat → Nat → Bool) (stored : Option SyncState) (hdr : List String)
    (rows : List (List String))
    (hc : check_sheet_changed stored (hashFn (hdr :: rows)) = true)
    (hts : hdr.contains "Timestamp" = true) :
    process_responses env hashFn writer stored (hdr :: rows) =
      run_rows env hdr writer 0 (selected_rows env stored hdr rows) := by
  show (if check_sheet_changed stored (hashFn (hdr :: rows)) = false
      then (⟨[], [], true⟩ : ProcRes)
      else if hdr.contains "Timestamp" = false then ⟨[], [], true⟩
      else run_rows env hdr writer 0 (selected_rows env stored hdr rows)) =
    run_rows env hdr writer 0 (selected_rows env stored hdr rows)
  rw [hc, hts]
  rfl

/-- Claim C1: with a differing fingerprint, the rows handed to the sync
loop are exactly the data rows whose parsed submission timestamp is
strictly greater than the stored high-water mark, and on a fully
successful run the persisted sync state carries the run's start time
`started` (never the maximum row timestamp) as the new high-water
mark. -/
theorem poll_filter_and_highwater_persist (env : Env) (hashFn : List (List String) → Nat)
    (writer : Nat → Nat → Bool) (s : SyncState) (hdr : List String)
    (rows : List (List String)) (started : Nat)
    (hchanged : hashFn (hdr :: rows) ≠ s.hash)
    (hts : hdr.contains "Timestamp" = true)
    (hparse : ∀ r ∈ selected_rows env (some s) hdr rows, row_parses env hdr r = true)
    (hw : ∀ j, writer j 0 = true) :
    (main_run env hashFn writer (some s) (hdr :: rows) started).ok = true ∧
    (main_run env hashFn writer (some s) (hdr :: rows) started).state =
      some ⟨hashFn (hdr :: rows), started⟩ ∧
    List.Forall₂ (parses_to env hdr)
      (rows.filter (fun r => s.datetime < env.parseTs (ts_of hdr r)))
      (main_run env hashFn writer (some s) (hdr :: rows) started).archive ∧
    (main_run env hashFn writer (some s) (hdr :: rows) started).ledger =
      (main_run env hashFn writer (some s) (hdr :: rows) started).archive := by
  have hc := check_changed_of_ne hchanged
  have hpr := process_eq_of_changed env hashFn writer (some s) hdr rows hc hts
  have hrun := run_rows_ok env hdr writer (selected_rows env (some s) hdr rows) 0 hparse hw
  have hout : main_run env hashFn writer (some s) (hdr :: rows) started =
      ⟨(run_rows env hdr writer 0 (selected_rows env (some s) hdr rows)).archive,
       (run_rows env hdr writer 0 (selected_rows env (some s) hdr rows)).ledger,
       some ⟨hashFn (hdr :: rows), started⟩, true⟩ := by
    simp [main_run, hpr, hrun.1]
  rw [hout]
  exact ⟨rfl, rfl, hrun.2.2, hrun.2.1⟩

/-- Witness for `poll_filter_and_highwater_persist`: stored high-water
mark 5, rows timestamped 3 and 7 — only the 7-row is synced, and the
persisted mark is the start time 100, not 7. -/
theorem poll_filter_and_highwater_persist_witness :
    test_hash [test_hdr, test_row "3" "Old" "", test_row "7" "Smith" "Bob"] ≠ 99 ∧
    (main_run test_env test_hash (fun _ _ => true) (some ⟨99, 5⟩)
        [test_hdr, test_row "3" "Old" "", test_row "7" "Smith" "Bob"] 100).ok = true ∧
    (main_run test_env test_hash (fun _ _ => true) (some ⟨99, 5⟩)
        [test_hdr, test_row "3" "Old" "", test_row "7" "Smith" "Bob"] 100).state =
      some ⟨3, 100⟩ ∧
    List.Forall₂ (parses_to test_env test_hdr) [test_row "7" "Smith" "Bob"]
      (main_run test_env test_hash (fun _ _ => true) (some ⟨99, 5⟩)
        [test_hdr, test_row "3" "Old" "", test_row "7" "Smith" "Bob"] 100).archive ∧
    (100 : Nat) ≠ nat_of_string "7" := by
  have h := poll_filter_and_highwater_persist test_env test_hash (fun _ _ => true) ⟨99, 5⟩
    test_hdr [test_row "3" "Old" "", test_row "7" "Smith" "Bob"] 100
    (by decide) (by decide) (by decide) (fun _ => rfl)
  refine ⟨by decide, h.1, h.2.1, ?_, by decide⟩
  have hf : ([test_row "3" "Old" "", test_row "7" "Smith" "Bob"].filter
      (fun r => (5 : Nat) < test_env.parseTs (ts_of test_hdr r))) =
      [test_row "7" "Smith" "Bob"] := by decide
  exact hf ▸ h.2.2.1

/-- Claim C3: a ledger-write failure on the `j`-th new row aborts the
run — sync state keeps its pre-run value, the process signals failure,
the archive retains the bookings appended up to and including the
failing row, and the ledger holds only the writes that preceded it. -/
theorem midrun_failure_preserves_state (env : Env) (hashFn : List (List String) → Nat)
    (writer : Nat → Nat → Bool) (s : SyncState) (hdr : List String)
    (rows : List (List String)) (started j : Nat)
    (hchanged : hashFn (hdr :: rows) ≠ s.hash)
    (hts : hdr.contains "Timestamp" = true)
    (hj : j < (selected_rows env (some s) hdr rows).length)
    (hparse : ∀ r ∈ (selected_rows env (some s) hdr rows).take (j + 1),
      row_parses env hdr r = true)
    (hm : ∀ m, m < j → writer m 0 = true)
    (hwj : writer j 0 = false) :
    (main_run env hashFn writer (some s) (hdr :: rows) started).state = some s ∧
    (main_run env hashFn writer (some s) (hdr :: rows) started).ok = false ∧
    List.Forall₂ (parses_to env hdr) ((selected_rows env (some s) hdr rows).take (j + 1))
      (main_run env hashFn writer (some s) (hdr :: rows) started).archive ∧
    List.Forall₂ (parses_to env hdr) ((selected_rows env (some s) hdr rows).take j)
      (main_run env hashFn writer (some s) (hdr :: rows) started).ledger := by
  have hc := check_changed_of_ne hchanged
  have hpr := process_eq_of_changed env hashFn writer (some s) hdr rows hc hts
  have hrun := run_rows_fail_write env hdr writer j (selected_rows env (some s) hdr rows) 0 hj
    hparse (fun m hm' => by simpa using hm m hm') (by simpa using hwj)
  have hout : main_run env hashFn writer (some s) (hdr :: rows) started =
      ⟨(run_rows env hdr writer 0 (selected_rows env (some s) hdr rows)).archive,
       (run_rows env hdr writer 0 (selected_rows env (some s) hdr rows)).ledger,
       some s, false⟩ := by
    simp [main_run, hpr, hrun.1]
  rw [hout]
  exact ⟨rfl, rfl, hrun.2.1, hrun.2.2⟩

/-- Witness for `midrun_failure_preserves_state`: both rows are new,
the write of booking 0 fails; the archive keeps that booking, the
ledger and sync state are untouched, the run fails. -/
theorem midrun_failure_preserves_state_witness :
    (main_run test_env test_hash (fun _ _ => false) (some ⟨99, 5⟩)
        [test_hdr, test_row "7" "Smith" "Bob"] 100).state = some ⟨99, 5⟩ ∧
    (main_run test_env test_hash (fun _ _ => false) (some ⟨99, 5⟩)
        [test_hdr, test_row "7" "Smith" "Bob"] 100).ok = false ∧
    List.Forall₂ (parses_to test_env test_hdr) [test_row "7" "Smith" "Bob"]
      (main_run test_env test_hash (fun _ _ => false) (some ⟨99, 5⟩)
        [test_hdr, test_row "7" "Smith" "Bob"] 100).archive ∧
    (main_run test_env test_hash (fun _ _ => false) (some ⟨99, 5⟩)
        [test_hdr, test_row "7" "Smith" "Bob"] 100).ledger = [] := by
  have h := midrun_failure_preserves_state test_env test_hash (fun _ _ => false) ⟨99, 5⟩
    test_hdr [test_row "7" "Smith" "Bob"] 100 0
    (by decide) (by decide) (by decide) (by decide) (fun m hm' => absurd hm' (by omega)) rfl
  refine ⟨h.1, h.2.1, ?_, ?_⟩
  · have hf : ((selected_rows test_env (some ⟨99, 5⟩) test_hdr
        [test_row "7" "Smith" "Bob"]).take 1) = [test_row "7" "Smith" "Bob"] := by decide
    exact hf ▸ h.2.2.1
  · have h0 := h.2.2.2
    simp only [List.take_zero] at h0
    exact List.forall₂_nil_left_iff.mp h0

/-- Claim C10: with no persisted sync-state file, `check_sheet_changed`
reports a change for any fetched table (the stored fingerprint is
`None`), the high-water mark defaults to the 1970 epoch, so every data
row with a post-epoch timestamp is selected and — when parses and
writes succeed — synced. -/
theorem first_run_syncs_all (env : Env) (hashFn : List (List String) → Nat)
    (writer : Nat → Nat → Bool) (hdr : List String) (rows : List (List String))
    (started : Nat)
    (hts : hdr.contains "Timestamp" = true)
    (hpos : ∀ r ∈ rows, 0 < env.parseTs (ts_of hdr r))
    (hparse : ∀ r ∈ rows, row_parses env hdr r = true)
    (hw : ∀ j, writer j 0 = true) :
    check_sheet_changed none (hashFn (hdr :: rows)) = true ∧
    previous_datetime none = 0 ∧
    selected_rows env none hdr rows = rows ∧
    (main_run env hashFn writer none (hdr :: rows) started).ok = true ∧
    List.Forall₂ (parses_to env hdr) rows
      (main_run env hashFn writer none (hdr :: rows) started).archive := by
  have hsel : selected_rows env none hdr rows = rows := by
    unfold selected_rows
    refine List.filter_eq_self.mpr (fun r hr => ?_)
    simpa [previous_datetime] using hpos r hr
  have hpr := process_eq_of_changed env hashFn writer none hdr rows rfl hts
  rw [hsel] at hpr
  have hrun := run_rows_ok env hdr writer rows 0 hparse hw
  have hout : main_run env hashFn writer none (hdr :: rows) started =
      ⟨(run_rows env hdr writer 0 rows).archive, (run_rows env hdr writer 0 rows).ledger,
       some ⟨hashFn (hdr :: rows), started⟩, true⟩ := by
    simp [main_run, hpr, hrun.1]
  rw [hout]
  exact ⟨rfl, rfl, hsel, rfl, hrun.2.2⟩

/-- Witness for `first_run_syncs_all`: no stored state, two data rows,
both selected and synced. -/
theorem first_run_syncs_all_witness :
    check_sheet_changed none (test_hash [test_hdr, test_row "3" "Old" "",
      test_row "7" "Smith" "Bob"]) = true ∧
    previous_datetime none = 0 ∧
    selected_rows test_env none test_hdr [test_row "3" "Old" "", test_row "7" "Smith" "Bob"] =
      [test_row "3" "Old" "", test_row "7" "Smith" "Bob"] ∧
    (main_run test_env test_hash (fun _ _ => true) none
        [test_hdr, test_row "3" "Old" "", test_row "7" "Smith" "Bob"] 100).ok = true ∧
    List.Forall₂ (parses_to test_env test_hdr)
      [test_row "3" "Old" "", test_row "7" "Smith" "Bob"]
      (main_run test_env test_hash (fun _ _ => true) none
        [test_hdr, test_row "3" "Old" "", test_row "7" "Smith" "Bob"] 100).archive := by
  exact first_run_syncs_all test_env test_hash (fun _ _ => true) test_hdr
    [test_row "3" "Old" "", test_row "7" "Smith" "Bob"] 100
    (by decide) (by decide) (by decide) (fun _ => rfl)

/- ## C4: retry policy around the ledger write -/

/-- A remote writer whose first attempt fails and whose later attempts
would succeed — exactly the transient failure a retry policy absorbs. -/
def writer_transient : Nat → Nat → Bool := fun _ a => decide (1 ≤ a)

/-- Claim C4, counterexample: the ledger-update step is NOT wrapped in
`functions.retry` (the decorator is defined but applied nowhere).  With
a writer that fails only on its first attempt — which the claimed
3-attempt policy would absorb, as the second conjunct shows on the
retry combinator itself — the polling run still fails and sync state is
not advanced: `booking.add_to_master(client)` is called exactly once
per booking with no retry around it. -/
theorem retry_not_applied_cex :
    writer_transient 0 0 = false ∧
    writer_transient 0 1 = true ∧
    (retry_call 3 2 (fun a => if writer_transient 0 a then Except.ok ()
      else Except.error "write failed")).result = some (Except.ok ()) ∧
    (main_run test_env test_hash writer_transient (some ⟨99, 5⟩)
        [test_hdr, test_row "7" "Smith" "Bob"] 100).ok = false ∧
    (main_run test_env test_hash writer_transient (some ⟨99, 5⟩)
        [test_hdr, test_row "7" "Smith" "Bob"] 100).state = some ⟨99, 5⟩ := by
  refine ⟨rfl, rfl, rfl, ?_, ?_⟩ <;> decide

/-- Claim C4 (amended): `functions.retry` itself implements a bounded
retry policy — at most `max_retries = 3` attempts, a fixed `delay = 2`
sleep between consecutive attempts, and, only once all attempts have
failed, a single failure alert followed by re-raising the final
attempt's error — but it is not applied to the ledger-update step: in
the polling run each booking's ledger write is attempted exactly once,
and its first failure is immediately fatal to the run (no alert, no
second attempt, sync state untouched). -/
theorem retry_policy_amended :
    (∀ (ε α : Type) (f : Nat → Except ε α) (e₀ e₁ e₂ : ε),
      f 0 = Except.error e₀ → f 1 = Except.error e₁ → f 2 = Except.error e₂ →
      retry_call 3 2 f = ⟨some (Except.error e₂), 1, [2, 2]⟩) ∧
    (∀ (ε α : Type) (f : Nat → Except ε α) (e₀ : ε) (a : α),
      f 0 = Except.error e₀ → f 1 = Except.ok a →
      retry_call 3 2 f = ⟨some (Except.ok a), 0, [2]⟩) ∧
    (∀ (ε α : Type) (f : Nat → Except ε α) (a : α),
      f 0 = Except.ok a → retry_call 3 2 f = ⟨some (Except.ok a), 0, []⟩) ∧
    (∀ (env : Env) (hashFn : List (List String) → Nat) (writer : Nat → Nat → Bool)
      (s : SyncState) (hdr : List String) (rows : List (List String)) (started j : Nat),
      hashFn (hdr :: rows) ≠ s.hash →
      hdr.contains "Timestamp" = true →
      j < (selected_rows env (some s) hdr rows).length →
      (∀ r ∈ (selected_rows env (some s) hdr rows).take (j + 1),
        row_parses env hdr r = true) →
      (∀ m, m < j → writer m 0 = true) →
      writer j 0 = false →
      (main_run env hashFn writer (some s) (hdr :: rows) started).ok = false ∧
      (main_run env hashFn writer (some s) (hdr :: rows) started).state = some s) := by
  refine ⟨?_, ?_, ?_, ?_⟩
  · intro ε α f e₀ e₁ e₂ h0 h1 h2
    simp [retry_call, retry_go, h0, h1, h2]
  · intro ε α f e₀ a h0 h1
    simp [retry_call, retry_go, h0, h1]
  · intro ε α f a h0
    simp [retry_call, retry_go, h0]
  · intro env hashFn writer s hdr rows started j hchanged hts hj hparse hm hwj
    have hc := check_changed_of_ne hchanged
    have hpr := process_eq_of_changed env hashFn writer (some s) hdr rows hc hts
    have hrun := run_rows_fail_write env hdr writer j (selected_rows env (some s) hdr rows) 0
      hj hparse (fun m hm' => by simpa using hm m hm') (by simpa using hwj)
    have hout : main_run env hashFn writer (some s) (hdr :: rows) started =
        ⟨(run_rows env hdr writer 0 (selected_rows env (some s) hdr rows)).archive,
         (run_rows env hdr writer 0 (selected_rows env (some s) hdr rows)).ledger,
         some s, false⟩ := by
      simp [main_run, hpr, hrun.1]
    rw [hout]
    exact ⟨rfl, rfl⟩

/-- Witness for `retry_policy_amended`: the combinator on an
always-failing and a transiently failing call, and the single-attempt
run behavior at a concrete table. -/
theorem retry_policy_amended_witness :
    retry_call 3 2 (fun _ => (Except.error "e" : Except String Unit)) =
      ⟨some (Except.error "e"), 1, [2, 2]⟩ ∧
    retry_call 3 2 (fun a => if a = 0 then (Except.error "e" : Except String Unit)
      else Except.ok ()) = ⟨some (Except.ok ()), 0, [2]⟩ ∧
    retry_call 3 2 (fun _ => (Except.ok () : Except String Unit)) =
      ⟨some (Except.ok ()), 0, []⟩ ∧
    ((main_run test_env test_hash writer_transient (some ⟨99, 5⟩)
        [test_hdr, test_row "7" "Smith" "Bob"] 100).ok = false ∧
      (main_run test_env test_hash writer_transient (some ⟨99, 5⟩)
        [test_hdr, test_row "7" "Smith" "Bob"] 100).state = some ⟨99, 5⟩) := by
  have h := retry_policy_amended
  refine ⟨h.1 String Unit _ "e" "e" "e" rfl rfl rfl,
    h.2.1 String Unit _ "e" () rfl rfl,
    h.2.2.1 String Unit _ () rfl,
    h.2.2.2 test_env test_hash writer_transient ⟨99, 5⟩ test_hdr
      [test_row "7" "Smith" "Bob"] 100 0
      (by decide) (by decide) (by decide) (by decide)
      (fun m hm' => absurd hm' (by omega)) rfl⟩

/- ## Parse inversion (C6, C7, C8) -/

theorem parse_row_ok_structure {env : Env} {fuel : Nat} {row : RowMap} {b : Booking}
    (h : parse_row env fuel row = Except.ok b) :
    b.leader_details.group = b.leader_details.family_name ∧
    b.guests = parse_guests row b.leader_details.family_name b.leader_details.chalet
      b.leader_details.start_date b.leader_details.end_date b.leader_details.booked_on
      fuel 2 := by
  unfold parse_row at h
  obtain ⟨ts, _, h⟩ := except_bind_ok h
  obtain ⟨fam, _, h⟩ := except_bind_ok h
  obtain ⟨chalet, _, h⟩ := except_bind_ok h
  obtain ⟨sraw, _, h⟩ := except_bind_ok h
  cases hsd : env.parseLFD sraw with
  | none => rw [hsd] at h; simp [Bind.bind, Except.bind] at h
  | some sd =>
  rw [hsd] at h
  obtain ⟨sd₂, _, h⟩ := except_bind_ok h
  obtain ⟨eraw, _, h⟩ := except_bind_ok h
  cases hed : env.parseLFD eraw with
  | none => rw [hed] at h; simp [Bind.bind, Except.bind] at h
  | some ed =>
  rw [hed] at h
  obtain ⟨ed₂, _, h⟩ := except_bind_ok h
  obtain ⟨fn, _, h⟩ := except_bind_ok h
  obtain ⟨em, _, h⟩ := except_bind_ok h
  obtain ⟨dob, _, h⟩ := except_bind_ok h
  obtain ⟨a1, _, h⟩ := except_bind_ok h
  obtain ⟨a2, _, h⟩ := except_bind_ok h
  obtain ⟨town, _, h⟩ := except_bind_ok h
  obtain ⟨pc, _, h⟩ := except_bind_ok h
  obtain ⟨ph, _, h⟩ := except_bind_ok h
  obtain ⟨rm, _, h⟩ := except_bind_ok h
  injection h with h
  subst h
  exact ⟨rfl, rfl⟩

theorem parse_guests_fields (row : RowMap) (fam ch sd ed bo : String) :
    ∀ (fuel n : Nat) (p : Nat × Guest), p ∈ parse_guests row fam ch sd ed bo fuel n →
    p.2.group = fam ∧ p.2.chalet = ch ∧ p.2.start_date = sd ∧ p.2.end_date = ed ∧
    p.2.booked_on = bo := by
  intro fuel
  induction fuel with
  | zero => intro n p hp; simp [parse_guests] at hp
  | succ f ih =>
    intro n p hp
    unfold parse_guests at hp
    cases hl : opt row (person_key "First name" n) with
    | none => rw [hl] at hp; simp at hp
    | some fn =>
      rw [hl] at hp
      have hp' : p ∈ (if fn = "" then ([] : List (Nat × Guest))
          else (n, mk_guest row fam ch sd ed bo n fn) ::
            parse_guests row fam ch sd ed bo f (n + 1)) := hp
      by_cases hfn : fn = ""
      · simp [hfn] at hp'
      · rw [if_neg hfn] at hp'
        rcases List.mem_cons.mp hp' with hp | hp
        · subst hp; exact ⟨rfl, rfl, rfl, rfl, rfl⟩
        · exact ih (n + 1) p hp

theorem parse_guests_keys (row : RowMap) (fam ch sd ed bo : String) :
    ∀ (k fuel n : Nat), (∀ j, j < k → guest_stop row (n + j) = false) →
    guest_stop row (n + k) = true → k < fuel →
    (parse_guests row fam ch sd ed bo fuel n).map Prod.fst = List.range' n k := by
  intro k
  induction k with
  | zero =>
    intro fuel n _ hstop hf
    cases fuel with
    | zero => omega
    | succ f =>
      rw [Nat.add_zero] at hstop
      unfold guest_stop at hstop
      unfold parse_guests
      cases hl : opt row (person_key "First name" n) with
      | none => simp [hl]
      | some s =>
        rw [hl] at hstop
        simp only [decide_eq_true_eq] at hstop
        simp [hl, hstop]
  | succ k ih =>
    intro fuel n hlt hstop hf
    cases fuel with
    | zero => omega
    | succ f =>
      have h0 : guest_stop row (n + 0) = false := hlt 0 (Nat.succ_pos k)
      rw [Nat.add_zero] at h0
      unfold guest_stop at h0
      cases hl : opt row (person_key "First name" n) with
      | none => rw [hl] at h0; simp at h0
      | some s =>
        rw [hl] at h0
        simp only [decide_eq_false_iff_not] at h0
        unfold parse_guests
        rw [hl]
        show List.map Prod.fst (if s = "" then []
          else (n, mk_guest row fam ch sd ed bo n s) ::
            parse_guests row fam ch sd ed bo f (n + 1)) = List.range' n (k + 1)
        rw [if_neg h0, List.map_cons, List.range'_succ]
        have hrec := ih f (n + 1)
          (fun j hj => by
            have := hlt (j + 1) (by omega)
            rwa [show n + (j + 1) = n + 1 + j by omega] at this)
          (by rwa [show n + 1 + k = n + (k + 1) by omega])
          (by omega)
        rw [hrec]

/- ## C6, C7: guest list and shared fields -/

/-- Claim C7: in every successfully parsed Booking the grouping key of
leader and guests is the leader's family name, and chalet, stay dates
and booked-on date are the same leader-scoped values on every member
(computed once, copied onto each guest). -/
theorem shared_fields_invariant (env : Env) (fuel : Nat) (row : RowMap) (b : Booking)
    (h : parse_row env fuel row = Except.ok b) :
    b.leader_details.group = b.leader_details.family_name ∧
    ∀ p ∈ b.guests,
      p.2.group = b.leader_details.family_name ∧
      p.2.chalet = b.leader_details.chalet ∧
      p.2.start_date = b.leader_details.start_date ∧
      p.2.end_date = b.leader_details.end_date ∧
      p.2.booked_on = b.leader_details.booked_on := by
  obtain ⟨hg, hgu⟩ := parse_row_ok_structure h
  refine ⟨hg, fun p hp => ?_⟩
  rw [hgu] at hp
  exact parse_guests_fields row _ _ _ _ _ fuel 2 p hp

/-- Claim C6: the parsed guest mapping holds exactly the contiguous
person numbers 2, …, k+1 where 2+k is the first person number whose
"First name (person n)" answer is absent or empty. -/
theorem guest_numbers_contiguous (env : Env) (fuel : Nat) (row : RowMap) (b : Booking)
    (k : Nat) (hb : parse_row env fuel row = Except.ok b)
    (hlt : ∀ j, j < k → guest_stop row (2 + j) = false)
    (hstop : guest_stop row (2 + k) = true)
    (hf : k < fuel) :
    b.guests.map Prod.fst = List.range' 2 k := by
  obtain ⟨_, hgu⟩ := parse_row_ok_structure hb
  rw [hgu]
  exact parse_guests_keys row _ _ _ _ _ k fuel 2 hlt hstop hf

/-- A complete polled row (cleaned), with person 2's first name present
and person 3's absent. -/
def row7c : RowMap := clean_row (test_hdr.zip (test_row "7" "Smith" "Bob"))

/-- A complete submission with every required leader answer. -/
def base_rowmap : RowMap :=
  [("Timestamp", "7"), ("Family name", "Jones"), ("Which chalet?", "A"),
   ("Start of stay in chalet A", "4 Jan"), ("End of stay in chalet A", "11 Jan"),
   ("First name", "Ann"), ("Email address", "ann@example.com"),
   ("Date of birth", "01/01/1990"), ("Address 1", "1 High St"), ("Address 2", "Flat 2"),
   ("Town", "Leeds"), ("Postcode", "LS1"), ("Contact telephone number", "07802 312241"),
   ("Which room will you be staying in?", "Blue")]

/-- A submission with a gap: person 2 absent, person 3 present. -/
def row_gap : RowMap := base_rowmap ++ [("First name (person 3)", "Carl")]

/-- Witness for `guest_numbers_contiguous`: one guest keyed 2 when only
person 2 is answered; zero guests when person 2 is absent even though
person 3 is present. -/
theorem guest_numbers_contiguous_witness :
    guest_stop row7c 2 = false ∧ guest_stop row7c 3 = true ∧
    (parse_row test_env 9 row7c).map (fun b => b.guests.map Prod.fst) =
      Except.ok [2] ∧
    guest_stop row_gap 2 = true ∧
    (List.lookup "First name (person 3)" row_gap).isSome = true ∧
    (parse_row test_env 9 row_gap).map (fun b => b.guests.map Prod.fst) =
      Except.ok [] := by
  refine ⟨by decide, by decide, ?_, by decide, by decide, ?_⟩
  · cases hb : parse_row test_env 9 row7c with
    | error e =>
      have hok : except_ok (parse_row test_env 9 row7c) = true := by decide
      rw [hb] at hok; simp [except_ok] at hok
    | ok b =>
      have hk := guest_numbers_contiguous test_env 9 row7c b 1 hb
        (fun j hj => by
          have : j = 0 := by omega
          subst this; decide)
        (by decide) (by omega)
      simp [Except.map, hk]
  · cases hb : parse_row test_env 9 row_gap with
    | error e =>
      have hok : except_ok (parse_row test_env 9 row_gap) = true := by decide
      rw [hb] at hok; simp [except_ok] at hok
    | ok b =>
      have hk := guest_numbers_contiguous test_env 9 row_gap b 0 hb
        (fun j hj => absurd hj (by omega))
        (by decide) (by omega)
      simp [Except.map, hk]

/-- Booking-level check used by the `shared_fields_invariant` witness:
the grouping key and the copied trip fields agree on every member. -/
def shared_ok (b : Booking) : Bool :=
  (b.leader_details.group = b.leader_details.family_name) &&
  b.guests.all (fun p =>
    (p.2.group = b.leader_details.family_name) &&
    (p.2.chalet = b.leader_details.chalet) &&
    (p.2.start_date = b.leader_details.start_date) &&
    (p.2.end_date = b.leader_details.end_date) &&
    (p.2.booked_on = b.leader_details.booked_on))

/-- Witness for `shared_fields_invariant` at a concrete one-guest
submission. -/
theorem shared_fields_invariant_witness :
    (parse_row test_env 9 row7c).map shared_ok = Except.ok true := by
  cases hb : parse_row test_env 9 row7c with
  | error e =>
    have hok : except_ok (parse_row test_env 9 row7c) = true := by decide
    rw [hb] at hok; simp [except_ok] at hok
  | ok b =>
    have h := shared_fields_invariant test_env 9 row7c b hb
    simp only [Except.map]
    suffices hs : shared_ok b = true by rw [hs]
    simp [shared_ok, h.1, List.all_eq_true]
    intro n g hp
    obtain ⟨h1, h2, h3, h4, h5⟩ := h.2 (n, g) hp
    exact ⟨⟨⟨⟨h1, h2⟩, h3⟩, h4⟩, h5⟩

/- ## C8: missing required fields -/

theorem parse_row_missing_sound {env : Env} {fuel : Nat} {row : RowMap} {k : String}
    (h : parse_row env fuel row = Except.error (.missingField k)) :
    List.lookup k row = none := by
  unfold parse_row at h
  rcases except_bind_error h with h | ⟨ts, _, h⟩
  · exact req_error_name h
  rcases except_bind_error h with h | ⟨fam, _, h⟩
  · exact req_error_name h
  rcases except_bind_error h with h | ⟨chalet, _, h⟩
  · exact req_error_name h
  rcases except_bind_error h with h | ⟨sraw, _, h⟩
  · exact req_error_name h
  cases hsd : env.parseLFD sraw with
  | none => rw [hsd] at h; simp [Bind.bind, Except.bind] at h
  | some sd =>
  rw [hsd] at h
  rcases except_bind_error h with h | ⟨sd₂, _, h⟩
  · simp at h
  rcases except_bind_error h with h | ⟨eraw, _, h⟩
  · exact req_error_name h
  cases hed : env.parseLFD eraw with
  | none => rw [hed] at h; simp [Bind.bind, Except.bind] at h
  | some ed =>
  rw [hed] at h
  rcases except_bind_error h with h | ⟨ed₂, _, h⟩
  · simp at h
  rcases except_bind_error h with h | ⟨fn, _, h⟩
  · exact req_error_name h
  rcases except_bind_error h with h | ⟨em, _, h⟩
  · exact req_error_name h
  rcases except_bind_error h with h | ⟨dob, _, h⟩
  · exact req_error_name h
  rcases except_bind_error h with h | ⟨a1, _, h⟩
  · exact req_error_name h
  rcases except_bind_error h with h | ⟨a2, _, h⟩
  · exact req_error_name h
  rcases except_bind_error h with h | ⟨tw, _, h⟩
  · exact req_error_name h
  rcases except_bind_error h with h | ⟨pc, _, h⟩
  · exact req_error_name h
  rcases except_bind_error h with h | ⟨ph, _, h⟩
  · exact req_error_name h
  rcases except_bind_error h with h | ⟨rm, _, h⟩
  · exact req_error_name h
  simp at h

theorem parse_row_missing_family {env : Env} {fuel : Nat} {row : RowMap} {ts : String}
    (hts : List.lookup "Timestamp" row = some ts)
    (hfam : List.lookup "Family name" row = none) :
    parse_row env fuel row = Except.error (.missingField "Family name") := by
  have h1 : req row "Timestamp" = Except.ok ts := by unfold req; rw [hts]
  have h2 : req row "Family name" = Except.error (.missingField "Family name") := by
    unfold req; rw [hfam]
  unfold parse_row
  rw [h1, h2]
  simp [Bind.bind, Except.bind]

/-- The concrete polled table behind the C8 counterexample: the first
data row has a blank "Family name" answer (dropped by cleaning), the
second is a complete valid submission. -/
def table8 : List (List String) :=
  [test_hdr, test_row "7" "" "Bob", test_row "8" "Jones" ""]

/-- Claim C8, counterexample: the polling loop has no per-record
exception handling, so the missing-field error raised by the first
record aborts the whole run — the complete second record is never
archived or written, refuting "other records in the same polling batch
are still processed". -/
theorem parse_error_aborts_batch_cex :
    parse_row test_env 9 (clean_row (test_hdr.zip (test_row "7" "" "Bob"))) =
      Except.error (.missingField "Family name") ∧
    row_parses test_env test_hdr (test_row "8" "Jones" "") = true ∧
    (main_run test_env test_hash (fun _ _ => true) none table8 50).archive = [] ∧
    (main_run test_env test_hash (fun _ _ => true) none table8 50).ledger = [] ∧
    (main_run test_env test_hash (fun _ _ => true) none table8 50).ok = false := by
  refine ⟨rfl, rfl, ?_, ?_, ?_⟩ <;> decide

/-- Claim C8 (amended): a missing required leader field makes the
record's parse fail with a MissingFieldError naming a genuinely absent
field (and a present Timestamp with an absent Family name yields
exactly `MissingFieldError "Family name"`), but in the polling path
this aborts the entire run, not just the one record: earlier records'
archive entries and ledger writes stand, later records are not
processed, sync state is not advanced, and the process signals
failure. -/
theorem missing_field_aborts_run :
    (∀ (env : Env) (fuel : Nat) (row : RowMap) (k : String),
      parse_row env fuel row = Except.error (.missingField k) →
      List.lookup k row = none) ∧
    (∀ (env : Env) (fuel : Nat) (row : RowMap) (ts : String),
      List.lookup "Timestamp" row = some ts → List.lookup "Family name" row = none →
      parse_row env fuel row = Except.error (.missingField "Family name")) ∧
    (∀ (env : Env) (hashFn : List (List String) → Nat) (writer : Nat → Nat → Bool)
      (stored : Option SyncState) (hdr : List String) (rows : List (List String))
      (started j : Nat) (hj : j < (selected_rows env stored hdr rows).length),
      check_sheet_changed stored (hashFn (hdr :: rows)) = true →
      hdr.contains "Timestamp" = true →
      (∀ r ∈ (selected_rows env stored hdr rows).take j, row_parses env hdr r = true) →
      row_parses env hdr ((selected_rows env stored hdr rows).get ⟨j, hj⟩) = false →
      (∀ m, m < j → writer m 0 = true) →
      (main_run env hashFn writer stored (hdr :: rows) started).ok = false ∧
      (main_run env hashFn writer stored (hdr :: rows) started).state = stored ∧
      List.Forall₂ (parses_to env hdr) ((selected_rows env stored hdr rows).take j)
        (main_run env hashFn writer stored (hdr :: rows) started).archive ∧
      (main_run env hashFn writer stored (hdr :: rows) started).ledger =
        (main_run env hashFn writer stored (hdr :: rows) started).archive) := by
  refine ⟨fun env fuel row k h => parse_row_missing_sound h,
    fun env fuel row ts h1 h2 => parse_row_missing_family h1 h2, ?_⟩
  intro env hashFn writer stored hdr rows started j hj hc hts hparse hfail hm
  have hpr := process_eq_of_changed env hashFn writer stored hdr rows hc hts
  have hrun := run_rows_fail_parse env hdr writer j (selected_rows env stored hdr rows) 0 hj
    hparse hfail (fun m hm' => by simpa using hm m hm')
  have hout : main_run env hashFn writer stored (hdr :: rows) started =
      ⟨(run_rows env hdr writer 0 (selected_rows env stored hdr rows)).archive,
       (run_rows env hdr writer 0 (selected_rows env stored hdr rows)).ledger,
       stored, false⟩ := by
    simp [main_run, hpr, hrun.1]
  rw [hout]
  exact ⟨rfl, rfl, hrun.2.1, hrun.2.2⟩

/-- Witness for `missing_field_aborts_run`: the blank-family-name row
of `table8` and the resulting aborted run. -/
theorem missing_field_aborts_run_witness :
    List.lookup "Family name" (clean_row (test_hdr.zip (test_row "7" "" "Bob"))) = none ∧
    parse_row test_env 9 (clean_row (test_hdr.zip (test_row "7" "" "Bob"))) =
      Except.error (.missingField "Family name") ∧
    (main_run test_env test_hash (fun _ _ => true) none table8 50).ok = false ∧
    (main_run test_env test_hash (fun _ _ => true) none table8 50).state = none ∧
    (main_run test_env test_hash (fun _ _ => true) none table8 50).archive = [] := by
  have h := missing_field_aborts_run
  have h3 := h.2.2 test_env test_hash (fun _ _ => true) none test_hdr
    [test_row "7" "" "Bob", test_row "8" "Jones" ""] 50 0 (by decide)
    rfl (by decide) (fun r hr => by simp at hr) (by decide)
    (fun m hm' => absurd hm' (by omega))
  refine ⟨h.1 test_env 9 (clean_row (test_hdr.zip (test_row "7" "" "Bob"))) "Family name" rfl,
    h.2.1 test_env 9 (clean_row (test_hdr.zip (test_row "7" "" "Bob"))) "7" (by decide) (by decide),
    h3.1, h3.2.1, ?_⟩
  have harch := h3.2.2.1
  simp only [List.take_zero] at harch
  exact List.forall₂_nil_left_iff.mp harch

/- ## C5: ledger row allocation -/

theorem lookup_mem_pairs {l : List (String × Nat)} {k : String} {v : Nat}
    (h : List.lookup k l = some v) : (k, v) ∈ l := by
  obtain ⟨l₁, l₂, rfl, -⟩ := List.lookup_eq_some_iff.mp h
  simp

theorem mapping_cols_valid : ∀ kv ∈ master_columns_mapping, kv.2 ≠ 2 ∧ kv.2 ≠ 15 := by
  decide

theorem map_fields_mem {pairs : List (String × CellVal)} {r : Nat} {c : Cell}
    (h : c ∈ map_fields pairs r) :
    c.row = r ∧ ∃ kv ∈ pairs, List.lookup kv.1 master_columns_mapping = some c.col := by
  unfold map_fields at h
  obtain ⟨kv, hkv, hc⟩ := List.mem_filterMap.mp h
  cases hl : List.lookup kv.1 master_columns_mapping with
  | none => rw [hl] at hc; simp at hc
  | some col =>
    rw [hl] at hc
    simp only [Option.map_some', Option.some.injEq] at hc
    subst hc
    exact ⟨rfl, kv, hkv, hl⟩

theorem map_fields_col_ne {pairs : List (String × CellVal)} {r : Nat} {c : Cell}
    (h : c ∈ map_fields pairs r) : c.col ≠ 2 ∧ c.col ≠ 15 := by
  obtain ⟨-, kv, -, hl⟩ := map_fields_mem h
  exact mapping_cols_valid (kv.1, c.col) (lookup_mem_pairs hl)

theorem guest_cells_row_col (start_row : Nat) :
    ∀ (gs : List (Nat × Guest)) (i0 : Nat) (c : Cell), c ∈ guest_cells start_row i0 gs →
    (∃ j, j < gs.length ∧ c.row = start_row + i0 + j) ∧ c.col ≠ 15 := by
  intro gs
  induction gs with
  | nil => intro i0 c hc; simp [guest_cells] at hc
  | cons p gs ih =>
    obtain ⟨m, g⟩ := p
    intro i0 c hc
    rcases List.mem_append.mp hc with hc | hc
    · rcases List.mem_cons.mp hc with hc | hc
      · subst hc
        exact ⟨⟨0, by simp, by simp⟩, by simp⟩
      · obtain ⟨hrow, -⟩ := map_fields_mem hc
        exact ⟨⟨0, by simp, by simpa using hrow⟩, (map_fields_col_ne hc).2⟩
    · obtain ⟨⟨j, hj, hrow⟩, hcol⟩ := ih (i0 + 1) c hc
      refine ⟨⟨j + 1, by simpa using hj, ?_⟩, hcol⟩
      rw [hrow]; omega

theorem guest_cells_nth (start_row : Nat) :
    ∀ (gs : List (Nat × Guest)) (i0 i n : Nat) (g : Guest), gs[i]? = some (n, g) →
    Cell.mk (start_row + i0 + i) 2 (.n (start_row + i0 + i - 1)) ∈
      guest_cells start_row i0 gs ∧
    ∀ c ∈ map_fields (guest_pairs g) (start_row + i0 + i), c ∈ guest_cells start_row i0 gs := by
  intro gs
  induction gs with
  | nil => intro i0 i n g h; simp at h
  | cons p gs ih =>
    obtain ⟨m, gg⟩ := p
    intro i0 i n g h
    cases i with
    | zero =>
      simp only [List.getElem?_cons_zero, Option.some.injEq, Prod.mk.injEq] at h
      obtain ⟨-, hg⟩ := h
      subst hg
      constructor
      · refine List.mem_append.mpr (Or.inl ?_)
        rw [Nat.add_zero]
        exact List.mem_cons_self _ _
      · intro c hc
        rw [Nat.add_zero] at hc
        exact List.mem_append.mpr (Or.inl (List.mem_cons_of_mem _ hc))
    | succ i =>
      simp only [List.getElem?_cons_succ] at h
      have hrec := ih (i0 + 1) i n g h
      have harith : start_row + (i0 + 1) + i = start_row + i0 + (i + 1) := by omega
      rw [harith] at hrec
      exact ⟨List.mem_append.mpr (Or.inr hrec.1),
        fun c hc => List.mem_append.mpr (Or.inr (hrec.2 c hc))⟩

theorem add_to_master_eq (ml : Nat) (bk : Booking) :
    add_to_master ml bk =
      Cell.mk (ml + 2) 2 (.n (ml + 1)) :: Cell.mk (ml + 2) 15 (.b true) ::
      (map_fields (booking_data_pairs bk) (ml + 2) ++
       map_fields (leader_pairs bk.leader_details) (ml + 2) ++
       guest_cells (ml + 2) 1 bk.guests) := rfl

/-- Claim C5: `start_row` is the surviving (non-blank-Identifier) data
row count plus 2; the leader's block sits at `start_row` with id marker
`start_row - 1` in column 2 and the confirmed flag in column 15 on the
leader row only; the `i`-th guest (1-based, ascending sequence order)
sits at `start_row + i` with id marker `start_row + i - 1`; every cell
of the batch lies between `start_row` and `start_row + #guests`. -/
theorem ledger_row_allocation (table : List (List String)) (bk : Booking) :
    Cell.mk (master_data_count table + 2) 2 (.n (master_data_count table + 1)) ∈
      add_to_master (master_data_count table) bk ∧
    Cell.mk (master_data_count table + 2) 15 (.b true) ∈
      add_to_master (master_data_count table) bk ∧
    (∀ c ∈ add_to_master (master_data_count table) bk, c.col = 15 →
      c.row = master_data_count table + 2) ∧
    (∀ c ∈ add_to_master (master_data_count table) bk,
      master_data_count table + 2 ≤ c.row ∧
      c.row ≤ master_data_count table + 2 + bk.guests.length) ∧
    (∀ c ∈ map_fields (leader_pairs bk.leader_details) (master_data_count table + 2),
      c ∈ add_to_master (master_data_count table) bk) ∧
    (∀ (i n : Nat) (g : Guest), bk.guests[i]? = some (n, g) →
      Cell.mk (master_data_count table + 2 + i + 1) 2 (.n (master_data_count table + 2 + i)) ∈
        add_to_master (master_data_count table) bk ∧
      ∀ c ∈ map_fields (guest_pairs g) (master_data_count table + 2 + i + 1),
        c ∈ add_to_master (master_data_count table) bk) := by
  rw [add_to_master_eq]
  refine ⟨List.mem_cons_self _ _,
    List.mem_cons_of_mem _ (List.mem_cons_self _ _), ?_, ?_, ?_, ?_⟩
  · intro c hc h15
    rcases List.mem_cons.mp hc with hc | hc
    · subst hc; simp at h15
    rcases List.mem_cons.mp hc with hc | hc
    · subst hc; rfl
    rcases List.mem_append.mp hc with hc | hc
    · rcases List.mem_append.mp hc with hc | hc
      · exact (map_fields_mem hc).1
      · exact (map_fields_mem hc).1
    · exact absurd h15 (guest_cells_row_col _ _ _ _ hc).2
  · intro c hc
    rcases List.mem_cons.mp hc with hc | hc
    · subst hc; simp
    rcases List.mem_cons.mp hc with hc | hc
    · subst hc; simp
    rcases List.mem_append.mp hc with hc | hc
    · rcases List.mem_append.mp hc with hc | hc
      · rw [(map_fields_mem hc).1]; omega
      · rw [(map_fields_mem hc).1]; omega
    · obtain ⟨⟨j, hj, hrow⟩, -⟩ := guest_cells_row_col _ _ _ _ hc
      rw [hrow]; omega
  · intro c hc
    exact List.mem_cons_of_mem _ (List.mem_cons_of_mem _
      (List.mem_append.mpr (Or.inl (List.mem_append.mpr (Or.inr hc)))))
  · intro i n g hg
    have hnth := guest_cells_nth (master_data_count table + 2) bk.guests 1 i n g hg
    have harith : master_data_count table + 2 + 1 + i = master_data_count table + 2 + i + 1 := by
      omega
    rw [harith] at hnth
    have harith2 : master_data_count table + 2 + i + 1 - 1 = master_data_count table + 2 + i := by
      omega
    rw [harith2] at hnth
    exact ⟨List.mem_cons_of_mem _ (List.mem_cons_of_mem _
        (List.mem_append.mpr (Or.inr hnth.1))),
      fun c hc => List.mem_cons_of_mem _ (List.mem_cons_of_mem _
        (List.mem_append.mpr (Or.inr (hnth.2 c hc))))⟩

/-- Concrete guest record for the ledger witness. -/
def fixture_guest (fn : String) : Guest :=
  { first_name := fn, family_name := "Lee", full_name := fn ++ " Lee",
    email := none, dob := none, room := none, group := "Smith", chalet := "A",
    start_date := "04/01/2026", end_date := "11/01/2026", booked_on := "01/12/2025" }

/-- Concrete leader record for the ledger witness. -/
def fixture_leader : Leader :=
  { first_name := "Ann", family_name := "Smith", full_name := "Ann Smith",
    email := "ann@example.com", dob := "01/01/1990", add1 := "1 High St",
    add2 := "Flat 2", add3 := none, town := "Leeds", postcode := "LS1",
    phone := "07802312241", room := "Blue", group := "Smith", chalet := "A",
    start_date := "04/01/2026", end_date := "11/01/2026", booked_on := "01/12/2025" }

/-- A booking with a leader and two guests. -/
def fixture_booking : Booking :=
  { leader_details := fixture_leader,
    guests := [(2, fixture_guest "Bob"), (3, fixture_guest "Cat")],
    how_heard := none, dietaries := none, kids_meals := none }

/-- A master-sheet snapshot with a header and 5 non-empty data rows. -/
def fixture_master : List (List String) :=
  [["Identifier", "Name"], ["1", "a"], ["2", "b"], ["3", "c"], ["4", "d"], ["5", "e"]]

/-- Witness for `ledger_row_allocation`: 5 existing data rows and 2
guests put the leader at row 7 (id marker 6, confirmed flag col 15) and
the guests at rows 8 and 9 with id markers 7 and 8. -/
theorem ledger_row_allocation_witness :
    master_data_count fixture_master = 5 ∧
    Cell.mk 7 2 (.n 6) ∈ add_to_master (master_data_count fixture_master) fixture_booking ∧
    Cell.mk 7 15 (.b true) ∈ add_to_master (master_data_count fixture_master) fixture_booking ∧
    Cell.mk 8 2 (.n 7) ∈ add_to_master (master_data_count fixture_master) fixture_booking ∧
    Cell.mk 9 2 (.n 8) ∈ add_to_master (master_data_count fixture_master) fixture_booking := by
  have h := ledger_row_allocation fixture_master fixture_booking
  refine ⟨by decide, h.1, h.2.1, ?_, ?_⟩
  · exact (h.2.2.2.2.2 0 2 (fixture_guest "Bob") (by decide)).1
  · exact (h.2.2.2.2.2 1 3 (fixture_guest "Cat") (by decide)).1
